import Mathlib

/-!
Verification of the computation-graph arena of `rusty-micrograd`
(`src/arena.rs`): node storage, construction operations, and the
reverse-mode backward pass.

The Rust code is generic over `T: Float`; we mirror this with a
`LinearOrderedField T`, passing the two transcendental operations
(`tanh`, `powf`) as explicit function parameters, exactly as the Rust
trait supplies them.  Rust's panicking indexing (`self.nodes[i]`) is
modelled twice: total functions read through a default node (used under
the in-range preconditions), and `Option`-valued "checked" variants
return `none` exactly where the Rust code would panic.
-/

namespace RustyMicrograd

/-- Operation type for each node in the graph (`enum Op<T>` in `arena.rs`). -/
inductive Op (T : Type) where
  | input
  | add
  | sub
  | mul
  | div
  | relu
  | tanh
  | pow (e : T)

/-- A single node in the computation graph (`struct Node<T>` in `arena.rs`). -/
structure Node (T : Type) where
  data : T
  grad : T
  op : Op T
  parents : List Nat

/-- Low-level arena holding nodes and topological order
(`struct GraphArena<T>` in `arena.rs`). -/
structure GraphArena (T : Type) where
  nodes : List (Node T)
  topo : List Nat

variable {T : Type} [LinearOrderedField T]


/-- The node read when an index is out of range; the total functions below
read through it, and the checked variants return `none` instead. -/
def defaultNode : Node T := ⟨0, 0, .input, []⟩

/-- `self.nodes[i]` as a total function. -/
def nodeAt (ns : List (Node T)) (i : Nat) : Node T :=
  (ns[i]?).getD defaultNode

/-- `self.nodes[i].data`. -/
def dataAt (ns : List (Node T)) (i : Nat) : T := (nodeAt ns i).data

/-- `self.nodes[i].grad`. -/
def gradAt (ns : List (Node T)) (i : Nat) : T := (nodeAt ns i).grad

/-- `self.nodes[i].op`. -/
def opAt (ns : List (Node T)) (i : Nat) : Op T := (nodeAt ns i).op

/-- `self.nodes[i].parents`. -/
def parentsAt (ns : List (Node T)) (i : Nat) : List Nat := (nodeAt ns i).parents

namespace GraphArena

/-- `GraphArena::new`: create a new, empty graph. -/
def new : GraphArena T := ⟨[], []⟩

/-- `GraphArena::input`: add an input (leaf) node. -/
def input (ar : GraphArena T) (data : T) : GraphArena T × Nat :=
  let idx := ar.nodes.length
  (⟨ar.nodes ++ [⟨data, 0, .input, []⟩], ar.topo ++ [idx]⟩, idx)

/-- `GraphArena::add`: create a node representing addition: c = a + b. -/
def add (ar : GraphArena T) (a b : Nat) : GraphArena T × Nat :=
  let data := dataAt ar.nodes a + dataAt ar.nodes b
  let idx := ar.nodes.length
  (⟨ar.nodes ++ [⟨data, 0, .add, [a, b]⟩], ar.topo ++ [idx]⟩, idx)

/-- `GraphArena::sub`: create a node representing subtraction: c = a - b. -/
def sub (ar : GraphArena T) (a b : Nat) : GraphArena T × Nat :=
  let data := dataAt ar.nodes a - dataAt ar.nodes b
  let idx := ar.nodes.length
  (⟨ar.nodes ++ [⟨data, 0, .sub, [a, b]⟩], ar.topo ++ [idx]⟩, idx)

/-- `GraphArena::mul`: create a node representing multiplication: c = a * b. -/
def mul (ar : GraphArena T) (a b : Nat) : GraphArena T × Nat :=
  let data := dataAt ar.nodes a * dataAt ar.nodes b
  let idx := ar.nodes.length
  (⟨ar.nodes ++ [⟨data, 0, .mul, [a, b]⟩], ar.topo ++ [idx]⟩, idx)

/-- `GraphArena::div`: create a node representing division: c = a / b. -/
def div (ar : GraphArena T) (a b : Nat) : GraphArena T × Nat :=
  let data := dataAt ar.nodes a / dataAt ar.nodes b
  let idx := ar.nodes.length
  (⟨ar.nodes ++ [⟨data, 0, .div, [a, b]⟩], ar.topo ++ [idx]⟩, idx)

/-- `GraphArena::relu`: ReLU activation: c = max(0, a). -/
def relu (ar : GraphArena T) (a : Nat) : GraphArena T × Nat :=
  let x := dataAt ar.nodes a
  let data := if x > 0 then x else 0
  let idx := ar.nodes.length
  (⟨ar.nodes ++ [⟨data, 0, .relu, [a]⟩], ar.topo ++ [idx]⟩, idx)

/-- `GraphArena::tanh`: tanh activation: c = tanh(a), with the trait's
`tanh` implementation passed in as `f`. -/
def tanh (ar : GraphArena T) (f : T → T) (a : Nat) : GraphArena T × Nat :=
  let x := dataAt ar.nodes a
  let data := f x
  let idx := ar.nodes.length
  (⟨ar.nodes ++ [⟨data, 0, .tanh, [a]⟩], ar.topo ++ [idx]⟩, idx)

/-- `GraphArena::powf`: power: c = a.powf(exponent), with the trait's
`powf` implementation passed in as `p`. -/
def powf (ar : GraphArena T) (p : T → T → T) (a : Nat) (exponent : T) :
    GraphArena T × Nat :=
  let data := p (dataAt ar.nodes a) exponent
  let idx := ar.nodes.length
  (⟨ar.nodes ++ [⟨data, 0, .pow exponent, [a]⟩], ar.topo ++ [idx]⟩, idx)

end GraphArena

/-- The grad-reset loop at the top of `GraphArena::backward`. -/
def resetGrads (ns : List (Node T)) : List (Node T) :=
  ns.map fun n => { n with grad := 0 }

/-- `self.nodes[i].grad = g` (a plain overwrite, used for the seed). -/
def setGrad (ns : List (Node T)) (i : Nat) (g : T) : List (Node T) :=
  ns.set i { nodeAt ns i with grad := g }

/-- `self.nodes[i].grad = self.nodes[i].grad + g`. -/
def addGrad (ns : List (Node T)) (i : Nat) (g : T) : List (Node T) :=
  ns.set i { nodeAt ns i with grad := (nodeAt ns i).grad + g }

/-- `self.nodes[i].grad = self.nodes[i].grad - g`. -/
def subGrad (ns : List (Node T)) (i : Nat) (g : T) : List (Node T) :=
  ns.set i { nodeAt ns i with grad := (nodeAt ns i).grad - g }

/-- The body of the traversal loop of `GraphArena::backward`: one visited
index `idx`, dispatching on its op to apply the local derivative rule.
Arms where the Rust code would panic (wrong parent arity) return the
nodes unchanged here; `backwardStepChecked` returns `none` there. -/
def backwardStep (p : T → T → T) (ns : List (Node T)) (idx : Nat) :
    List (Node T) :=
  let n := nodeAt ns idx
  let g := n.grad
  match n.op, n.parents with
  | .add, [a, b] => addGrad (addGrad ns a g) b g
  | .sub, [a, b] => subGrad (addGrad ns a g) b g
  | .mul, [a, b] =>
      let da := (nodeAt ns b).data * g
      let db := (nodeAt ns a).data * g
      addGrad (addGrad ns a da) b db
  | .div, [a, b] =>
      let da := g / (nodeAt ns b).data
      let db := -((nodeAt ns a).data * g) /
        ((nodeAt ns b).data * (nodeAt ns b).data)
      addGrad (addGrad ns a da) b db
  | .relu, a :: _ =>
      let d : T := if (nodeAt ns a).data > 0 then 1 else 0
      addGrad ns a (d * g)
  | .tanh, a :: _ =>
      let y := n.data
      let d := 1 - y * y
      addGrad ns a (d * g)
  | .pow e, a :: _ =>
      let x := (nodeAt ns a).data
      let d := e * p x (e - 1)
      addGrad ns a (d * g)
  | .input, _ => ns
  | _, _ => ns

/-- `GraphArena::backward`: perform backward pass from loss index to
compute gradients.  Resets grads, seeds `grad(loss) = 1`, then traverses
`topo` in reverse applying the local derivative rules. -/
def backward (p : T → T → T) (ar : GraphArena T) (lossIdx : Nat) :
    GraphArena T :=
  let ns0 := resetGrads ar.nodes
  let ns1 := setGrad ns0 lossIdx 1
  let ns2 := ar.topo.reverse.foldl (backwardStep p) ns1
  ⟨ns2, ar.topo⟩

/-! ### Pointwise lemmas about node access and the gradient updaters -/

/-! ### Shape preservation by the backward traversal -/

/-! ### Structural invariants of constructed arenas -/

/-- Number of operand indices each operation kind carries. -/
def opArity (o : Op T) : Nat :=
  match o with
  | .input => 0
  | .add => 2
  | .sub => 2
  | .mul => 2
  | .div => 2
  | .relu => 1
  | .tanh => 1
  | .pow _ => 1

/-- Well-formedness of the node stored at index `i`: correct operand
arity, and every operand strictly below `i`. -/
def NodeWf (i : Nat) (n : Node T) : Prop :=
  n.parents.length = opArity n.op ∧ ∀ q ∈ n.parents, q < i

/-- Structural well-formedness of an arena: `topo` is exactly the
creation order `0, 1, …`, and every stored node is well-formed. -/
def Wf (ar : GraphArena T) : Prop :=
  ar.topo = List.range ar.nodes.length ∧
  ∀ i, i < ar.nodes.length → NodeWf i (nodeAt ar.nodes i)

instance (i : Nat) (n : Node T) : Decidable (NodeWf i n) := by
  unfold NodeWf; infer_instance

instance (ar : GraphArena T) : Decidable (Wf ar) := by
  unfold Wf; infer_instance

/-- Every node's parents lie strictly below it (at out-of-range indices
this reads the parentless `defaultNode`, so it holds there trivially). -/
def ParentsDec (ns : List (Node T)) : Prop :=
  ∀ i, ∀ q ∈ parentsAt ns i, q < i

/-- Arenas reachable from `GraphArena::new` by construction calls whose
operand indices are in range. -/
inductive Built : GraphArena T → Prop where
  | new : Built .new
  | input (ar : GraphArena T) (v : T) : Built ar → Built (ar.input v).1
  | add (ar : GraphArena T) (a b : Nat) : Built ar →
      a < ar.nodes.length → b < ar.nodes.length → Built (ar.add a b).1
  | sub (ar : GraphArena T) (a b : Nat) : Built ar →
      a < ar.nodes.length → b < ar.nodes.length → Built (ar.sub a b).1
  | mul (ar : GraphArena T) (a b : Nat) : Built ar →
      a < ar.nodes.length → b < ar.nodes.length → Built (ar.mul a b).1
  | div (ar : GraphArena T) (a b : Nat) : Built ar →
      a < ar.nodes.length → b < ar.nodes.length → Built (ar.div a b).1
  | relu (ar : GraphArena T) (a : Nat) : Built ar →
      a < ar.nodes.length → Built (ar.relu a).1
  | tanh (ar : GraphArena T) (f : T → T) (a : Nat) : Built ar →
      a < ar.nodes.length → Built (ar.tanh f a).1
  | powf (ar : GraphArena T) (p : T → T → T) (a : Nat) (e : T) : Built ar →
      a < ar.nodes.length → Built (ar.powf p a e).1

/-! ### Idempotence machinery: `resetGrads` erases every grad update -/

/-! ### Reachability through operand references -/

/-- `Deps ns root i`: node `i` has a forward path to `root`, i.e. there
is a chain of operand references leading from `root` back to `i`. -/
inductive Deps (ns : List (Node T)) (root : Nat) : Nat → Prop where
  | refl : Deps ns root root
  | step {j q : Nat} : Deps ns root j → q ∈ parentsAt ns j → Deps ns root q

/-- The backward pass exactly as §4.2 of the spec words it: reset every
grad, seed `grad(root) = 1`, then visit all node indices in strictly
decreasing order, applying the local derivative rule at each visit. -/
def backwardSpec (p : T → T → T) (ar : GraphArena T) (root : Nat) :
    GraphArena T :=
  ⟨(List.range ar.nodes.length).reverse.foldl (backwardStep p)
      (setGrad (resetGrads ar.nodes) root 1), ar.topo⟩

/-! ### Checked variants: `none` exactly where the Rust code panics -/

/-- `GraphArena::add` with Rust's panicking indexing made explicit: `none`
exactly when an operand index is out of range. -/
def GraphArena.addChecked (ar : GraphArena T) (a b : Nat) :
    Option (GraphArena T × Nat) :=
  match ar.nodes[a]?, ar.nodes[b]? with
  | some na, some nb =>
      let data := na.data + nb.data
      let idx := ar.nodes.length
      some (⟨ar.nodes ++ [⟨data, 0, .add, [a, b]⟩], ar.topo ++ [idx]⟩, idx)
  | _, _ => none

/-- `GraphArena::sub`, checked. -/
def GraphArena.subChecked (ar : GraphArena T) (a b : Nat) :
    Option (GraphArena T × Nat) :=
  match ar.nodes[a]?, ar.nodes[b]? with
  | some na, some nb =>
      let data := na.data - nb.data
      let idx := ar.nodes.length
      some (⟨ar.nodes ++ [⟨data, 0, .sub, [a, b]⟩], ar.topo ++ [idx]⟩, idx)
  | _, _ => none

/-- `GraphArena::mul`, checked. -/
def GraphArena.mulChecked (ar : GraphArena T) (a b : Nat) :
    Option (GraphArena T × Nat) :=
  match ar.nodes[a]?, ar.nodes[b]? with
  | some na, some nb =>
      let data := na.data * nb.data
      let idx := ar.nodes.length
      some (⟨ar.nodes ++ [⟨data, 0, .mul, [a, b]⟩], ar.topo ++ [idx]⟩, idx)
  | _, _ => none

/-- `GraphArena::div`, checked. -/
def GraphArena.divChecked (ar : GraphArena T) (a b : Nat) :
    Option (GraphArena T × Nat) :=
  match ar.nodes[a]?, ar.nodes[b]? with
  | some na, some nb =>
      let data := na.data / nb.data
      let idx := ar.nodes.length
      some (⟨ar.nodes ++ [⟨data, 0, .div, [a, b]⟩], ar.topo ++ [idx]⟩, idx)
  | _, _ => none

/-- `GraphArena::relu`, checked. -/
def GraphArena.reluChecked (ar : GraphArena T) (a : Nat) :
    Option (GraphArena T × Nat) :=
  match ar.nodes[a]? with
  | some na =>
      let data := if na.data > 0 then na.data else 0
      let idx := ar.nodes.length
      some (⟨ar.nodes ++ [⟨data, 0, .relu, [a]⟩], ar.topo ++ [idx]⟩, idx)
  | none => none

/-- `GraphArena::tanh`, checked. -/
def GraphArena.tanhChecked (ar : GraphArena T) (f : T → T) (a : Nat) :
    Option (GraphArena T × Nat) :=
  match ar.nodes[a]? with
  | some na =>
      let data := f na.data
      let idx := ar.nodes.length
      some (⟨ar.nodes ++ [⟨data, 0, .tanh, [a]⟩], ar.topo ++ [idx]⟩, idx)
  | none => none

/-- `GraphArena::powf`, checked. -/
def GraphArena.powfChecked (ar : GraphArena T) (p : T → T → T) (a : Nat)
    (exponent : T) : Option (GraphArena T × Nat) :=
  match ar.nodes[a]? with
  | some na =>
      let data := p na.data exponent
      let idx := ar.nodes.length
      some (⟨ar.nodes ++ [⟨data, 0, .pow exponent, [a]⟩],
        ar.topo ++ [idx]⟩, idx)
  | none => none

/-- One visit of the traversal loop of `backward`, checked: `none`
wherever the Rust loop body would panic (visited index, operand index, or
the `try_from(..).unwrap()` arity check). -/
def backwardStepChecked (p : T → T → T) (ns : List (Node T)) (idx : Nat) :
    Option (List (Node T)) :=
  match ns[idx]? with
  | none => none
  | some n =>
    let g := n.grad
    match n.op, n.parents with
    | .add, [a, b] =>
        match ns[a]?, ns[b]? with
        | some _, some _ => some (addGrad (addGrad ns a g) b g)
        | _, _ => none
    | .sub, [a, b] =>
        match ns[a]?, ns[b]? with
        | some _, some _ => some (subGrad (addGrad ns a g) b g)
        | _, _ => none
    | .mul, [a, b] =>
        match ns[a]?, ns[b]? with
        | some _, some _ =>
            let da := (nodeAt ns b).data * g
            let db := (nodeAt ns a).data * g
            some (addGrad (addGrad ns a da) b db)
        | _, _ => none
    | .div, [a, b] =>
        match ns[a]?, ns[b]? with
        | some _, some _ =>
            let da := g / (nodeAt ns b).data
            let db := -((nodeAt ns a).data * g) /
              ((nodeAt ns b).data * (nodeAt ns b).data)
            some (addGrad (addGrad ns a da) b db)
        | _, _ => none
    | .relu, a :: _ =>
        match ns[a]? with
        | some _ =>
            let d : T := if (nodeAt ns a).data > 0 then 1 else 0
            some (addGrad ns a (d * g))
        | none => none
    | .tanh, a :: _ =>
        match ns[a]? with
        | some _ =>
            let d := 1 - n.data * n.data
            some (addGrad ns a (d * g))
        | none => none
    | .pow e, a :: _ =>
        match ns[a]? with
        | some _ =>
            let d := e * p (nodeAt ns a).data (e - 1)
            some (addGrad ns a (d * g))
        | none => none
    | .input, _ => some ns
    | _, _ => none

/-- `GraphArena::backward`, checked: `none` exactly when the Rust code
would panic (seeding an out-of-range loss index, or any panic inside the
traversal loop). -/
def backwardChecked (p : T → T → T) (ar : GraphArena T) (lossIdx : Nat) :
    Option (GraphArena T) :=
  let ns0 := resetGrads ar.nodes
  match ns0[lossIdx]? with
  | none => none
  | some n0 =>
    let ns1 := ns0.set lossIdx { n0 with grad := 1 }
    match ar.topo.reverse.foldlM (backwardStepChecked p) ns1 with
    | none => none
    | some ns2 => some ⟨ns2, ar.topo⟩

/-- Arity/topology well-formedness of a node list alone (the second half
of `Wf`). -/
def ShapeWf (ns : List (Node T)) : Prop :=
  ∀ i, i < ns.length → NodeWf i (nodeAt ns i)

/-! ### Concrete example arenas over ℚ -/

/-- x = input(2). -/
def ex0 : GraphArena ℚ × Nat := (GraphArena.new (T := ℚ)).input 2

/-- z = mul(x, x), value 4. -/
def ex1 : GraphArena ℚ × Nat := ex0.1.mul ex0.2 ex0.2

/-- w = add(z, x), value 6. -/
def ex2 : GraphArena ℚ × Nat := ex1.1.add ex1.2 ex0.2

/-- A first unconnected input, value 5. -/
def exPairA : GraphArena ℚ × Nat := (GraphArena.new (T := ℚ)).input 5

/-- A second unconnected input, value 3. -/
def exPairB : GraphArena ℚ × Nat := exPairA.1.input 3

/-- x = input(0). -/
def exR0 : GraphArena ℚ × Nat := (GraphArena.new (T := ℚ)).input 0

/-- y = relu(x) over the zero input. -/
def exR1 : GraphArena ℚ × Nat := exR0.1.relu exR0.2

/-! ### Lemmas -/

theorem nodeAt_oob (ns : List (Node T)) (i : Nat) (h : ns.length ≤ i) :
    nodeAt ns i = defaultNode := by
  simp [nodeAt, List.getElem?_eq_none h]

theorem nodeAt_lt (ns : List (Node T)) (i : Nat) (h : i < ns.length) :
    ns[i]? = some (nodeAt ns i) := by
  simp [nodeAt, List.getElem?_eq_getElem h]

theorem nodeAt_set (ns : List (Node T)) (i j : Nat) (x : Node T) :
    nodeAt (ns.set i x) j =
      if j = i ∧ i < ns.length then x else nodeAt ns j := by
  by_cases hji : j = i
  · subst hji
    by_cases hlen : j < ns.length
    · simp [nodeAt, List.getElem?_set_eq_of_lt x hlen, hlen]
    · rw [List.set_eq_of_length_le (Nat.le_of_not_lt hlen)]
      simp [hlen]
  · have : ¬(j = i ∧ i < ns.length) := fun hc => hji hc.1
    simp [nodeAt, List.getElem?_set_ne (fun hij => hji hij.symm), this]

theorem nodeAt_resetGrads (ns : List (Node T)) (i : Nat) :
    nodeAt (resetGrads ns) i = { nodeAt ns i with grad := 0 } := by
  unfold resetGrads nodeAt
  rw [List.getElem?_map]
  cases h : ns[i]? with
  | none => rfl
  | some v => rfl

theorem length_resetGrads (ns : List (Node T)) :
    (resetGrads ns).length = ns.length := by
  simp [resetGrads]

theorem length_setGrad (ns : List (Node T)) (i : Nat) (g : T) :
    (setGrad ns i g).length = ns.length := by
  simp [setGrad]

theorem length_addGrad (ns : List (Node T)) (i : Nat) (g : T) :
    (addGrad ns i g).length = ns.length := by
  simp [addGrad]

theorem length_subGrad (ns : List (Node T)) (i : Nat) (g : T) :
    (subGrad ns i g).length = ns.length := by
  simp [subGrad]

theorem nodeAt_setGrad (ns : List (Node T)) (i j : Nat) (g : T) :
    nodeAt (setGrad ns i g) j =
      if j = i ∧ i < ns.length then { nodeAt ns i with grad := g }
      else nodeAt ns j := by
  simp [setGrad, nodeAt_set]

theorem nodeAt_addGrad (ns : List (Node T)) (i j : Nat) (g : T) :
    nodeAt (addGrad ns i g) j =
      if j = i ∧ i < ns.length then
        { nodeAt ns i with grad := (nodeAt ns i).grad + g }
      else nodeAt ns j := by
  simp [addGrad, nodeAt_set]

theorem nodeAt_subGrad (ns : List (Node T)) (i j : Nat) (g : T) :
    nodeAt (subGrad ns i g) j =
      if j = i ∧ i < ns.length then
        { nodeAt ns i with grad := (nodeAt ns i).grad - g }
      else nodeAt ns j := by
  simp [subGrad, nodeAt_set]

theorem dataAt_setGrad (ns : List (Node T)) (i j : Nat) (g : T) :
    dataAt (setGrad ns i g) j = dataAt ns j := by
  unfold dataAt; rw [nodeAt_setGrad]
  split
  · rename_i h; rw [h.1]
  · rfl

theorem dataAt_addGrad (ns : List (Node T)) (i j : Nat) (g : T) :
    dataAt (addGrad ns i g) j = dataAt ns j := by
  unfold dataAt; rw [nodeAt_addGrad]
  split
  · rename_i h; rw [h.1]
  · rfl

theorem dataAt_subGrad (ns : List (Node T)) (i j : Nat) (g : T) :
    dataAt (subGrad ns i g) j = dataAt ns j := by
  unfold dataAt; rw [nodeAt_subGrad]
  split
  · rename_i h; rw [h.1]
  · rfl

theorem opAt_setGrad (ns : List (Node T)) (i j : Nat) (g : T) :
    opAt (setGrad ns i g) j = opAt ns j := by
  unfold opAt; rw [nodeAt_setGrad]
  split
  · rename_i h; rw [h.1]
  · rfl

theorem opAt_addGrad (ns : List (Node T)) (i j : Nat) (g : T) :
    opAt (addGrad ns i g) j = opAt ns j := by
  unfold opAt; rw [nodeAt_addGrad]
  split
  · rename_i h; rw [h.1]
  · rfl

theorem opAt_subGrad (ns : List (Node T)) (i j : Nat) (g : T) :
    opAt (subGrad ns i g) j = opAt ns j := by
  unfold opAt; rw [nodeAt_subGrad]
  split
  · rename_i h; rw [h.1]
  · rfl

theorem parentsAt_setGrad (ns : List (Node T)) (i j : Nat) (g : T) :
    parentsAt (setGrad ns i g) j = parentsAt ns j := by
  unfold parentsAt; rw [nodeAt_setGrad]
  split
  · rename_i h; rw [h.1]
  · rfl

theorem parentsAt_addGrad (ns : List (Node T)) (i j : Nat) (g : T) :
    parentsAt (addGrad ns i g) j = parentsAt ns j := by
  unfold parentsAt; rw [nodeAt_addGrad]
  split
  · rename_i h; rw [h.1]
  · rfl

theorem parentsAt_subGrad (ns : List (Node T)) (i j : Nat) (g : T) :
    parentsAt (subGrad ns i g) j = parentsAt ns j := by
  unfold parentsAt; rw [nodeAt_subGrad]
  split
  · rename_i h; rw [h.1]
  · rfl

theorem gradAt_setGrad (ns : List (Node T)) (i j : Nat) (g : T) :
    gradAt (setGrad ns i g) j =
      if j = i ∧ i < ns.length then g else gradAt ns j := by
  unfold gradAt; rw [nodeAt_setGrad]
  split <;> rfl

theorem gradAt_addGrad (ns : List (Node T)) (i j : Nat) (g : T) :
    gradAt (addGrad ns i g) j =
      if j = i ∧ i < ns.length then gradAt ns j + g else gradAt ns j := by
  unfold gradAt; rw [nodeAt_addGrad]
  split
  · rename_i h; rw [h.1]
  · rfl

theorem gradAt_subGrad (ns : List (Node T)) (i j : Nat) (g : T) :
    gradAt (subGrad ns i g) j =
      if j = i ∧ i < ns.length then gradAt ns j - g else gradAt ns j := by
  unfold gradAt; rw [nodeAt_subGrad]
  split
  · rename_i h; rw [h.1]
  · rfl

theorem dataAt_resetGrads (ns : List (Node T)) (i : Nat) :
    dataAt (resetGrads ns) i = dataAt ns i := by
  simp [dataAt, nodeAt_resetGrads]

theorem opAt_resetGrads (ns : List (Node T)) (i : Nat) :
    opAt (resetGrads ns) i = opAt ns i := by
  simp [opAt, nodeAt_resetGrads]

theorem parentsAt_resetGrads (ns : List (Node T)) (i : Nat) :
    parentsAt (resetGrads ns) i = parentsAt ns i := by
  simp [parentsAt, nodeAt_resetGrads]

theorem gradAt_resetGrads (ns : List (Node T)) (i : Nat) :
    gradAt (resetGrads ns) i = 0 := by
  simp [gradAt, nodeAt_resetGrads]

theorem dataAt_backwardStep (p : T → T → T) (ns : List (Node T))
    (idx j : Nat) : dataAt (backwardStep p ns idx) j = dataAt ns j := by
  unfold backwardStep
  dsimp only
  split <;> simp [dataAt_addGrad, dataAt_subGrad]

theorem opAt_backwardStep (p : T → T → T) (ns : List (Node T))
    (idx j : Nat) : opAt (backwardStep p ns idx) j = opAt ns j := by
  unfold backwardStep
  dsimp only
  split <;> simp [opAt_addGrad, opAt_subGrad]

theorem parentsAt_backwardStep (p : T → T → T) (ns : List (Node T))
    (idx j : Nat) : parentsAt (backwardStep p ns idx) j = parentsAt ns j := by
  unfold backwardStep
  dsimp only
  split <;> simp [parentsAt_addGrad, parentsAt_subGrad]

theorem length_backwardStep (p : T → T → T) (ns : List (Node T))
    (idx : Nat) : (backwardStep p ns idx).length = ns.length := by
  unfold backwardStep
  dsimp only
  split <;> simp [length_addGrad, length_subGrad]

theorem dataAt_foldl (p : T → T → T) (L : List Nat) (ns : List (Node T))
    (j : Nat) : dataAt (L.foldl (backwardStep p) ns) j = dataAt ns j := by
  induction L generalizing ns with
  | nil => rfl
  | cons i L ih => rw [List.foldl_cons, ih, dataAt_backwardStep]

theorem opAt_foldl (p : T → T → T) (L : List Nat) (ns : List (Node T))
    (j : Nat) : opAt (L.foldl (backwardStep p) ns) j = opAt ns j := by
  induction L generalizing ns with
  | nil => rfl
  | cons i L ih => rw [List.foldl_cons, ih, opAt_backwardStep]

theorem parentsAt_foldl (p : T → T → T) (L : List Nat) (ns : List (Node T))
    (j : Nat) : parentsAt (L.foldl (backwardStep p) ns) j = parentsAt ns j := by
  induction L generalizing ns with
  | nil => rfl
  | cons i L ih => rw [List.foldl_cons, ih, parentsAt_backwardStep]

theorem length_foldl (p : T → T → T) (L : List Nat) (ns : List (Node T)) :
    (L.foldl (backwardStep p) ns).length = ns.length := by
  induction L generalizing ns with
  | nil => rfl
  | cons i L ih => rw [List.foldl_cons, ih, length_backwardStep]

/-- A node whose own accumulated gradient is zero contributes nothing:
its visit leaves every gradient in the arena unchanged. -/
theorem gradAt_backwardStep_of_grad_zero (p : T → T → T)
    (ns : List (Node T)) (idx : Nat) (h : gradAt ns idx = 0) (j : Nat) :
    gradAt (backwardStep p ns idx) j = gradAt ns j := by
  have h' : (nodeAt ns idx).grad = 0 := h
  unfold backwardStep
  dsimp only
  rw [h']
  split <;>
    simp [gradAt_addGrad, gradAt_subGrad, mul_zero, zero_div, add_zero,
      sub_zero, neg_zero]

/-- A visit only writes into the gradients of the visited node's parents:
any index that is not a parent keeps its gradient. -/
theorem gradAt_backwardStep_of_not_parent (p : T → T → T)
    (ns : List (Node T)) (idx j : Nat) (h : j ∉ parentsAt ns idx) :
    gradAt (backwardStep p ns idx) j = gradAt ns j := by
  have h' : j ∉ (nodeAt ns idx).parents := h
  unfold backwardStep
  dsimp only
  split <;>
    simp_all [gradAt_addGrad, gradAt_subGrad]

theorem wf_parentsDec (ar : GraphArena T) (h : Wf ar) :
    ParentsDec ar.nodes := by
  intro i q hq
  by_cases hi : i < ar.nodes.length
  · exact (h.2 i hi).2 q hq
  · unfold parentsAt at hq
    rw [nodeAt_oob _ _ (Nat.le_of_not_lt hi)] at hq
    simp [defaultNode] at hq

theorem nodeAt_append_lt (ns ms : List (Node T)) (i : Nat)
    (h : i < ns.length) : nodeAt (ns ++ ms) i = nodeAt ns i := by
  unfold nodeAt
  rw [List.getElem?_append]
  simp [h]

theorem nodeAt_append_len (ns : List (Node T)) (x : Node T) :
    nodeAt (ns ++ [x]) ns.length = x := by
  unfold nodeAt
  simp

/-- Appending one well-formed node at index `length` preserves `Wf`. -/
theorem wf_append (ar : GraphArena T) (x : Node T) (h : Wf ar)
    (hx : NodeWf ar.nodes.length x) :
    Wf ⟨ar.nodes ++ [x], ar.topo ++ [ar.nodes.length]⟩ := by
  constructor
  · simp [h.1, List.range_succ]
  · intro i hi
    simp only [List.length_append, List.length_cons, List.length_nil] at hi
    rcases Nat.lt_or_ge i ar.nodes.length with hlt | hge
    · rw [nodeAt_append_lt _ _ _ hlt]
      exact h.2 i hlt
    · have hieq : i = ar.nodes.length :=
        Nat.le_antisymm (Nat.lt_succ_iff.mp hi) hge
      subst hieq
      rw [nodeAt_append_len]
      exact hx

/-- Every reachable arena is structurally well-formed. -/
theorem built_wf (ar : GraphArena T) (h : Built ar) : Wf ar := by
  induction h with
  | new =>
      exact ⟨rfl, fun i hi => absurd hi (by simp [GraphArena.new])⟩
  | input ar v _ ih =>
      exact wf_append ar _ ih ⟨rfl, by simp⟩
  | add ar a b _ ha hb ih =>
      exact wf_append ar _ ih ⟨rfl, by simp; exact ⟨ha, hb⟩⟩
  | sub ar a b _ ha hb ih =>
      exact wf_append ar _ ih ⟨rfl, by simp; exact ⟨ha, hb⟩⟩
  | mul ar a b _ ha hb ih =>
      exact wf_append ar _ ih ⟨rfl, by simp; exact ⟨ha, hb⟩⟩
  | div ar a b _ ha hb ih =>
      exact wf_append ar _ ih ⟨rfl, by simp; exact ⟨ha, hb⟩⟩
  | relu ar a _ ha ih =>
      exact wf_append ar _ ih ⟨rfl, by simp [ha]⟩
  | tanh ar f a _ ha ih =>
      exact wf_append ar _ ih ⟨rfl, by simp [ha]⟩
  | powf ar p a e _ ha ih =>
      exact wf_append ar _ ih ⟨rfl, by simp [ha]⟩

theorem set_nodeAt_self (ns : List (Node T)) (i : Nat) :
    ns.set i (nodeAt ns i) = ns := by
  apply List.ext_getElem?
  intro j
  by_cases hj : j = i
  · subst hj
    by_cases hl : j < ns.length
    · rw [List.getElem?_set_eq_of_lt _ hl, nodeAt_lt _ _ hl]
    · rw [List.set_eq_of_length_le (Nat.le_of_not_lt hl)]
  · rw [List.getElem?_set_ne (fun h => hj h.symm)]

theorem resetGrads_set (ns : List (Node T)) (i : Nat) (x : Node T) :
    resetGrads (ns.set i x) = (resetGrads ns).set i { x with grad := 0 } := by
  unfold resetGrads
  rw [List.map_set]

theorem resetGrads_setGrad (ns : List (Node T)) (i : Nat) (g : T) :
    resetGrads (setGrad ns i g) = resetGrads ns := by
  unfold setGrad
  rw [resetGrads_set]
  have hx : ({ { nodeAt ns i with grad := g } with grad := 0 } : Node T) =
      nodeAt (resetGrads ns) i := (nodeAt_resetGrads ns i).symm
  rw [hx, set_nodeAt_self]

theorem resetGrads_addGrad (ns : List (Node T)) (i : Nat) (g : T) :
    resetGrads (addGrad ns i g) = resetGrads ns := by
  unfold addGrad
  rw [resetGrads_set]
  have hx : ({ { nodeAt ns i with grad := (nodeAt ns i).grad + g } with
      grad := 0 } : Node T) = nodeAt (resetGrads ns) i :=
    (nodeAt_resetGrads ns i).symm
  rw [hx, set_nodeAt_self]

theorem resetGrads_subGrad (ns : List (Node T)) (i : Nat) (g : T) :
    resetGrads (subGrad ns i g) = resetGrads ns := by
  unfold subGrad
  rw [resetGrads_set]
  have hx : ({ { nodeAt ns i with grad := (nodeAt ns i).grad - g } with
      grad := 0 } : Node T) = nodeAt (resetGrads ns) i :=
    (nodeAt_resetGrads ns i).symm
  rw [hx, set_nodeAt_self]

theorem resetGrads_resetGrads (ns : List (Node T)) :
    resetGrads (resetGrads ns) = resetGrads ns := by
  apply List.ext_getElem?
  intro j
  unfold resetGrads
  rw [List.getElem?_map, List.getElem?_map]
  cases ns[j]? <;> rfl

theorem resetGrads_backwardStep (p : T → T → T) (ns : List (Node T))
    (idx : Nat) : resetGrads (backwardStep p ns idx) = resetGrads ns := by
  unfold backwardStep
  dsimp only
  split <;> simp [resetGrads_addGrad, resetGrads_subGrad]

theorem resetGrads_foldl (p : T → T → T) (L : List Nat)
    (ns : List (Node T)) :
    resetGrads (L.foldl (backwardStep p) ns) = resetGrads ns := by
  induction L generalizing ns with
  | nil => rfl
  | cons i L ih => rw [List.foldl_cons, ih, resetGrads_backwardStep]

theorem deps_le (ns : List (Node T)) (root i : Nat) (hpar : ParentsDec ns)
    (h : Deps ns root i) : i ≤ root := by
  induction h with
  | refl => exact Nat.le_refl root
  | step hd hq ih => exact Nat.le_of_lt (Nat.lt_of_lt_of_le (hpar _ _ hq) ih)

/-- In a graph where no node has parents, the only node with a forward
path to `root` is `root` itself. -/
theorem deps_of_parents_nil (ns : List (Node T)) (root i : Nat)
    (hnil : ∀ j, parentsAt ns j = []) (h : Deps ns root i) : i = root := by
  induction h with
  | refl => rfl
  | step hd hq ih => rw [hnil] at hq; cases hq

/-- Core invariant of the reverse walk: nodes without a forward path to
the root keep gradient zero throughout, and the root's seed gradient 1
survives the whole walk. -/
theorem backward_fold_invariant (p : T → T → T) (ns0 : List (Node T))
    (root : Nat) (hpar : ParentsDec ns0) (L : List Nat)
    (ns : List (Node T))
    (hshape : ∀ j, parentsAt ns j = parentsAt ns0 j)
    (hzero : ∀ j, ¬ Deps ns0 root j → gradAt ns j = 0)
    (hroot : gradAt ns root = 1) :
    (∀ j, ¬ Deps ns0 root j →
        gradAt (L.foldl (backwardStep p) ns) j = 0) ∧
      gradAt (L.foldl (backwardStep p) ns) root = 1 := by
  induction L generalizing ns with
  | nil => exact ⟨hzero, hroot⟩
  | cons idx L ih =>
    rw [List.foldl_cons]
    apply ih
    · intro j
      rw [parentsAt_backwardStep, hshape]
    · intro j hj
      by_cases hidx : Deps ns0 root idx
      · have hj' : j ∉ parentsAt ns idx := by
          rw [hshape]
          intro hmem
          exact hj (Deps.step hidx hmem)
        rw [gradAt_backwardStep_of_not_parent p ns idx j hj']
        exact hzero j hj
      · rw [gradAt_backwardStep_of_grad_zero p ns idx (hzero idx hidx) j]
        exact hzero j hj
    · by_cases hmem : root ∈ parentsAt ns idx
      · have hlt : root < idx := hpar idx root (hshape idx ▸ hmem)
        have hnd : ¬ Deps ns0 root idx := fun hd =>
          Nat.lt_irrefl root (Nat.lt_of_lt_of_le hlt (deps_le _ _ _ hpar hd))
        rw [gradAt_backwardStep_of_grad_zero p ns idx (hzero idx hnd) root]
        exact hroot
      · rw [gradAt_backwardStep_of_not_parent p ns idx root hmem]
        exact hroot


/-- C1: gradient accumulation follows the multivariate chain rule: with
x = input(2), z = mul(x, x) (value 4), w = add(z, x) (value 6),
`backward(w)` yields grad(x) = 5, grad(z) = 1, grad(w) = 1 — for any
`powf` implementation, which this graph never consults. -/
theorem claim1_chain_rule_accumulation (p : ℚ → ℚ → ℚ) :
    dataAt ex1.1.nodes ex1.2 = 4 ∧ dataAt ex2.1.nodes ex2.2 = 6 ∧
    gradAt (backward p ex2.1 ex2.2).nodes ex0.2 = 5 ∧
    gradAt (backward p ex2.1 ex2.2).nodes ex1.2 = 1 ∧
    gradAt (backward p ex2.1 ex2.2).nodes ex2.2 = 1 := by
  simp only [ex0, ex1, ex2, GraphArena.new, GraphArena.input, GraphArena.mul,
    GraphArena.add, backward, backwardStep, resetGrads, setGrad, addGrad, subGrad,
    nodeAt, gradAt, dataAt,
    List.nil_append, List.cons_append, List.append_nil, List.length_cons,
    List.length_nil, List.map_cons, List.map_nil, List.reverse_cons,
    List.reverse_nil, List.foldl_cons, List.foldl_nil, List.set]
  norm_num

theorem claim1_witness :
    dataAt ex1.1.nodes ex1.2 = 4 ∧ dataAt ex2.1.nodes ex2.2 = 6 ∧
    gradAt (backward (fun _ _ => 0) ex2.1 ex2.2).nodes ex0.2 = 5 ∧
    gradAt (backward (fun _ _ => 0) ex2.1 ex2.2).nodes ex1.2 = 1 ∧
    gradAt (backward (fun _ _ => 0) ex2.1 ex2.2).nodes ex2.2 = 1 :=
  claim1_chain_rule_accumulation (fun _ _ => 0)

/-- C3: topological soundness is an invariant preserved by every
construction operation: in every arena reachable by construction calls
with in-range arguments, every node's every operand index is strictly
less than that node's own index. -/
theorem claim3_topological_soundness (ar : GraphArena T) (h : Built ar) :
    ∀ i, i < ar.nodes.length → ∀ q ∈ parentsAt ar.nodes i, q < i := by
  intro i hi q hq
  exact ((built_wf ar h).2 i hi).2 q hq

theorem claim3_witness :
    2 < ex2.1.nodes.length ∧ 1 ∈ parentsAt ex2.1.nodes 2 ∧ 1 < 2 :=
  ⟨by decide, by decide,
    claim3_topological_soundness ex2.1
      (Built.add ex1.1 ex1.2 ex0.2
        (Built.mul ex0.1 ex0.2 ex0.2
          (Built.input GraphArena.new 2 Built.new)
          (by decide) (by decide))
        (by decide) (by decide))
      2 (by decide) 1 (by decide)⟩

/-- C6: `backward` is idempotent for a fixed graph and fixed node values:
running it twice from the same root leaves every node's grad (indeed the
whole arena) equal to the result of the first run. -/
theorem claim6_backward_idempotent (p : T → T → T) (ar : GraphArena T)
    (root : Nat) :
    backward p (backward p ar root) root = backward p ar root := by
  unfold backward
  dsimp only
  rw [resetGrads_foldl, resetGrads_setGrad, resetGrads_resetGrads]

theorem claim6_witness :
    backward (fun (_ _ : ℚ) => 0) (backward (fun _ _ => 0) ex2.1 ex2.2) ex2.2 =
      backward (fun _ _ => 0) ex2.1 ex2.2 :=
  claim6_backward_idempotent (fun _ _ => 0) ex2.1 ex2.2

/-- C2: for every (well-formed) arena and valid root, `backward` first
resets every grad, then seeds grad(root) = 1, then folds the local
derivative rule over all node indices in strictly decreasing order — the
exact reverse of creation order. -/
theorem claim2_backward_schedule (p : T → T → T) (ar : GraphArena T)
    (root : Nat) (hwf : Wf ar) (_hroot : root < ar.nodes.length) :
    backward p ar root = backwardSpec p ar root ∧
      ((List.range ar.nodes.length).reverse).Pairwise (· > ·) ∧
      ∀ i, i < ar.nodes.length → i ∈ (List.range ar.nodes.length).reverse := by
  refine ⟨?_, ?_, ?_⟩
  · unfold backward backwardSpec
    rw [hwf.1]
  · rw [List.pairwise_reverse]
    exact List.pairwise_lt_range _
  · intro i hi
    rw [List.mem_reverse]
    exact List.mem_range.mpr hi

theorem claim2_witness :
    (backward (fun (_ _ : ℚ) => 0) ex2.1 ex2.2 =
        backwardSpec (fun _ _ => 0) ex2.1 ex2.2 ∧
      ((List.range ex2.1.nodes.length).reverse).Pairwise (· > ·) ∧
      ∀ i, i < ex2.1.nodes.length →
        i ∈ (List.range ex2.1.nodes.length).reverse) :=
  claim2_backward_schedule (fun _ _ => 0) ex2.1 ex2.2 (by decide) (by decide)



/-- C7: after `backward(root)`, every node with no forward path to the
root (no chain of operand references from `root` back to it) has grad
zero. -/
theorem claim7_unreached_zero (p : T → T → T) (ar : GraphArena T)
    (root i : Nat) (hwf : Wf ar) (hroot : root < ar.nodes.length)
    (hnd : ¬ Deps ar.nodes root i) :
    gradAt (backward p ar root).nodes i = 0 := by
  unfold backward
  dsimp only
  refine (backward_fold_invariant p ar.nodes root (wf_parentsDec ar hwf)
    ar.topo.reverse (setGrad (resetGrads ar.nodes) root 1) ?_ ?_ ?_).1 i hnd
  · intro j
    rw [parentsAt_setGrad, parentsAt_resetGrads]
  · intro j hj
    rw [gradAt_setGrad]
    split
    · rename_i hc
      cases hc.1
      exact absurd Deps.refl hj
    · exact gradAt_resetGrads _ _
  · rw [gradAt_setGrad]
    simp [length_resetGrads, hroot]

theorem claim7_witness :
    gradAt (backward (fun (_ _ : ℚ) => 0) exPairB.1 exPairB.2).nodes 0 = 0 :=
  claim7_unreached_zero (fun _ _ => 0) exPairB.1 exPairB.2 0 (by decide)
    (by decide)
    (fun h => by
      have h01 := deps_of_parents_nil exPairB.1.nodes exPairB.2 0
        (fun j => by rcases j with _ | _ | j <;> rfl) h
      exact absurd h01 (by decide))

/-- C10: after `backward(root)`, grad(root) = 1 even when root is not the
most recently created node: later nodes that list root among their
operands carry zero gradient throughout the walk and contribute
nothing. -/
theorem claim10_root_seed_survives (p : T → T → T) (ar : GraphArena T)
    (root : Nat) (hwf : Wf ar) (hroot : root < ar.nodes.length) :
    gradAt (backward p ar root).nodes root = 1 := by
  unfold backward
  dsimp only
  refine (backward_fold_invariant p ar.nodes root (wf_parentsDec ar hwf)
    ar.topo.reverse (setGrad (resetGrads ar.nodes) root 1) ?_ ?_ ?_).2
  · intro j
    rw [parentsAt_setGrad, parentsAt_resetGrads]
  · intro j hj
    rw [gradAt_setGrad]
    split
    · rename_i hc
      cases hc.1
      exact absurd Deps.refl hj
    · exact gradAt_resetGrads _ _
  · rw [gradAt_setGrad]
    simp [length_resetGrads, hroot]

theorem claim10_witness :
    gradAt (backward (fun (_ _ : ℚ) => 0) ex1.1 ex0.2).nodes ex0.2 = 1 :=
  claim10_root_seed_survives (fun _ _ => 0) ex1.1 ex0.2 (by decide) (by decide)


theorem gradAt_addGrad_self (ns : List (Node T)) (i : Nat) (g : T)
    (h : i < ns.length) : gradAt (addGrad ns i g) i = gradAt ns i + g := by
  rw [gradAt_addGrad]
  simp [h]

theorem gradAt_addGrad_ne (ns : List (Node T)) (i j : Nat) (g : T)
    (h : j ≠ i) : gradAt (addGrad ns i g) j = gradAt ns j := by
  rw [gradAt_addGrad]
  simp [h]

/-- C8: every construction operation appends exactly one node, returns
its index (the previous length), and never mutates any existing node's
value, grad, op, or operands. -/
theorem claim8_construction_append_only (ar : GraphArena T) (v e : T)
    (f : T → T) (p : T → T → T) (a b : Nat) :
    ((ar.input v).2 = ar.nodes.length ∧
      (ar.input v).1.nodes.length = ar.nodes.length + 1 ∧
      ∀ i, i < ar.nodes.length →
        nodeAt (ar.input v).1.nodes i = nodeAt ar.nodes i) ∧
    ((ar.add a b).2 = ar.nodes.length ∧
      (ar.add a b).1.nodes.length = ar.nodes.length + 1 ∧
      ∀ i, i < ar.nodes.length →
        nodeAt (ar.add a b).1.nodes i = nodeAt ar.nodes i) ∧
    ((ar.sub a b).2 = ar.nodes.length ∧
      (ar.sub a b).1.nodes.length = ar.nodes.length + 1 ∧
      ∀ i, i < ar.nodes.length →
        nodeAt (ar.sub a b).1.nodes i = nodeAt ar.nodes i) ∧
    ((ar.mul a b).2 = ar.nodes.length ∧
      (ar.mul a b).1.nodes.length = ar.nodes.length + 1 ∧
      ∀ i, i < ar.nodes.length →
        nodeAt (ar.mul a b).1.nodes i = nodeAt ar.nodes i) ∧
    ((ar.div a b).2 = ar.nodes.length ∧
      (ar.div a b).1.nodes.length = ar.nodes.length + 1 ∧
      ∀ i, i < ar.nodes.length →
        nodeAt (ar.div a b).1.nodes i = nodeAt ar.nodes i) ∧
    ((ar.relu a).2 = ar.nodes.length ∧
      (ar.relu a).1.nodes.length = ar.nodes.length + 1 ∧
      ∀ i, i < ar.nodes.length →
        nodeAt (ar.relu a).1.nodes i = nodeAt ar.nodes i) ∧
    ((ar.tanh f a).2 = ar.nodes.length ∧
      (ar.tanh f a).1.nodes.length = ar.nodes.length + 1 ∧
      ∀ i, i < ar.nodes.length →
        nodeAt (ar.tanh f a).1.nodes i = nodeAt ar.nodes i) ∧
    ((ar.powf p a e).2 = ar.nodes.length ∧
      (ar.powf p a e).1.nodes.length = ar.nodes.length + 1 ∧
      ∀ i, i < ar.nodes.length →
        nodeAt (ar.powf p a e).1.nodes i = nodeAt ar.nodes i) := by
  refine ⟨⟨rfl, by simp [GraphArena.input], fun i hi => nodeAt_append_lt _ _ _ hi⟩,
    ⟨rfl, by simp [GraphArena.add], fun i hi => nodeAt_append_lt _ _ _ hi⟩,
    ⟨rfl, by simp [GraphArena.sub], fun i hi => nodeAt_append_lt _ _ _ hi⟩,
    ⟨rfl, by simp [GraphArena.mul], fun i hi => nodeAt_append_lt _ _ _ hi⟩,
    ⟨rfl, by simp [GraphArena.div], fun i hi => nodeAt_append_lt _ _ _ hi⟩,
    ⟨rfl, by simp [GraphArena.relu], fun i hi => nodeAt_append_lt _ _ _ hi⟩,
    ⟨rfl, by simp [GraphArena.tanh], fun i hi => nodeAt_append_lt _ _ _ hi⟩,
    ⟨rfl, by simp [GraphArena.powf], fun i hi => nodeAt_append_lt _ _ _ hi⟩⟩

theorem claim8_witness :
    (ex2.1.add 0 1).2 = ex2.1.nodes.length ∧
    (ex2.1.add 0 1).1.nodes.length = ex2.1.nodes.length + 1 ∧
    nodeAt (ex2.1.add 0 1).1.nodes 0 = nodeAt ex2.1.nodes 0 := by
  have h := (claim8_construction_append_only ex2.1 1 2 (fun x => x)
    (fun _ _ => 0) 0 1).2.1
  exact ⟨h.1, h.2.1, h.2.2 0 (by decide)⟩

/-- C4: when `backward` visits a Divide node with operands [a, b], it
adds grad(n)/value(b) into grad(a) and −value(a)·grad(n)/value(b)² into
grad(b), accumulating into (never overwriting) previously accumulated
gradients, and touches no other node's gradient. -/
theorem claim4_divide_rule (p : T → T → T) (ns : List (Node T))
    (idx a b : Nat) (hop : opAt ns idx = Op.div)
    (hpar : parentsAt ns idx = [a, b]) (ha : a < ns.length)
    (hb : b < ns.length) :
    (a ≠ b →
      gradAt (backwardStep p ns idx) a =
        gradAt ns a + gradAt ns idx / dataAt ns b ∧
      gradAt (backwardStep p ns idx) b =
        gradAt ns b + -(dataAt ns a) * gradAt ns idx / (dataAt ns b) ^ 2) ∧
    (a = b →
      gradAt (backwardStep p ns idx) a =
        gradAt ns a + gradAt ns idx / dataAt ns b
          + -(dataAt ns a) * gradAt ns idx / (dataAt ns b) ^ 2) ∧
    ∀ j, j ≠ a → j ≠ b → gradAt (backwardStep p ns idx) j = gradAt ns j := by
  have hop' : (nodeAt ns idx).op = Op.div := hop
  have hpar' : (nodeAt ns idx).parents = [a, b] := hpar
  unfold backwardStep
  dsimp only
  rw [hop', hpar']
  dsimp only
  refine ⟨?_, ?_, ?_⟩
  · intro hab
    constructor
    · rw [gradAt_addGrad_ne _ _ _ _ hab, gradAt_addGrad_self _ _ _ ha]
      rfl
    · rw [gradAt_addGrad_self _ _ _ (by rw [length_addGrad]; exact hb),
        gradAt_addGrad_ne _ _ _ _ (fun h => hab h.symm), pow_two, neg_mul]
      rfl
  · intro hab
    subst hab
    rw [gradAt_addGrad_self _ _ _ (by rw [length_addGrad]; exact ha),
      gradAt_addGrad_self _ _ _ ha, pow_two, neg_mul]
    rfl
  · intro j hja hjb
    rw [gradAt_addGrad_ne _ _ _ _ hjb, gradAt_addGrad_ne _ _ _ _ hja]

theorem claim4_witness :
    gradAt (backwardStep (fun (_ _ : ℚ) => 0)
        [⟨6, 0, Op.input, []⟩, ⟨3, 0, Op.input, []⟩, ⟨2, 1, Op.div, [0, 1]⟩] 2) 0 =
      gradAt [⟨6, 0, Op.input, []⟩, ⟨3, 0, Op.input, []⟩,
        (⟨2, 1, Op.div, [0, 1]⟩ : Node ℚ)] 0 +
        gradAt [⟨6, 0, Op.input, []⟩, ⟨3, 0, Op.input, []⟩,
          (⟨2, 1, Op.div, [0, 1]⟩ : Node ℚ)] 2 /
          dataAt [⟨6, 0, Op.input, []⟩, ⟨3, 0, Op.input, []⟩,
            (⟨2, 1, Op.div, [0, 1]⟩ : Node ℚ)] 1 :=
  ((claim4_divide_rule (fun _ _ => 0)
      [⟨6, 0, Op.input, []⟩, ⟨3, 0, Op.input, []⟩, ⟨2, 1, Op.div, [0, 1]⟩]
      2 0 1 rfl rfl (by decide) (by decide)).1 (by decide)).1

/-- C5: the Rectify subgradient at exactly zero is zero: with
x = input(0), y = relu(x), `backward(y)` yields grad(x) = 0; and in
general the Relu backward rule adds grad(n) to the operand's gradient
when the operand's value is strictly positive and adds 0 otherwise. -/
theorem claim5_relu_subgradient_zero (p : ℚ → ℚ → ℚ) :
    gradAt (backward p exR1.1 exR1.2).nodes exR0.2 = 0 ∧
    ∀ (S : Type) [LinearOrderedField S], ∀ (q : S → S → S)
      (ns : List (Node S)) (idx a : Nat) (rest : List Nat),
      opAt ns idx = Op.relu → parentsAt ns idx = a :: rest →
      a < ns.length →
      (gradAt (backwardStep q ns idx) a =
        gradAt ns a + (if 0 < dataAt ns a then gradAt ns idx else 0)) ∧
      ∀ j, j ≠ a → gradAt (backwardStep q ns idx) j = gradAt ns j := by
  constructor
  · simp only [exR0, exR1, GraphArena.new, GraphArena.input, GraphArena.relu,
      backward, backwardStep, resetGrads, setGrad, addGrad, subGrad,
      nodeAt, gradAt, dataAt,
      List.nil_append, List.cons_append, List.append_nil, List.length_cons,
      List.length_nil, List.map_cons, List.map_nil, List.reverse_cons,
      List.reverse_nil, List.foldl_cons, List.foldl_nil, List.set]
    norm_num
  · intro S instS q ns idx a rest hop hpar ha
    have hop' : (nodeAt ns idx).op = Op.relu := hop
    have hpar' : (nodeAt ns idx).parents = a :: rest := hpar
    unfold backwardStep
    dsimp only
    rw [hop', hpar']
    dsimp only
    constructor
    · rw [gradAt_addGrad_self _ _ _ ha]
      by_cases hd : 0 < dataAt ns a
      · have hd' : (nodeAt ns a).data > 0 := hd
        rw [if_pos hd', if_pos hd, one_mul]
        rfl
      · have hd' : ¬ (nodeAt ns a).data > 0 := hd
        rw [if_neg hd', if_neg hd, zero_mul]
    · intro j hj
      rw [gradAt_addGrad_ne _ _ _ _ hj]

theorem claim5_witness :
    gradAt (backward (fun (_ _ : ℚ) => 0) exR1.1 exR1.2).nodes exR0.2 = 0 ∧
    gradAt (backwardStep (fun (_ _ : ℚ) => 0) exR1.1.nodes 1) 0 =
      gradAt exR1.1.nodes 0 +
        (if 0 < dataAt exR1.1.nodes 0 then gradAt exR1.1.nodes 1 else 0) :=
  ⟨(claim5_relu_subgradient_zero (fun _ _ => 0)).1,
   ((claim5_relu_subgradient_zero (fun _ _ => 0)).2 ℚ (fun _ _ => 0)
      exR1.1.nodes 1 0 [] rfl rfl (by decide)).1⟩


theorem addChecked_spec (ar : GraphArena T) (a b : Nat) :
    (ar.addChecked a b = none ↔
      ¬(a < ar.nodes.length ∧ b < ar.nodes.length)) ∧
    (a < ar.nodes.length → b < ar.nodes.length →
      ar.addChecked a b = some (ar.add a b)) := by
  have hsome : a < ar.nodes.length → b < ar.nodes.length →
      ar.addChecked a b = some (ar.add a b) := by
    intro ha hb
    unfold GraphArena.addChecked
    rw [nodeAt_lt _ _ ha, nodeAt_lt _ _ hb]
    rfl
  refine ⟨⟨?_, ?_⟩, hsome⟩
  · intro hn hc
    rw [hsome hc.1 hc.2] at hn
    cases hn
  · intro hc
    unfold GraphArena.addChecked
    by_cases ha : a < ar.nodes.length
    · have hb : ¬ b < ar.nodes.length := fun hb => hc ⟨ha, hb⟩
      rw [nodeAt_lt _ _ ha, List.getElem?_eq_none (Nat.le_of_not_lt hb)]
    · rw [List.getElem?_eq_none (Nat.le_of_not_lt ha)]

theorem subChecked_spec (ar : GraphArena T) (a b : Nat) :
    (ar.subChecked a b = none ↔
      ¬(a < ar.nodes.length ∧ b < ar.nodes.length)) ∧
    (a < ar.nodes.length → b < ar.nodes.length →
      ar.subChecked a b = some (ar.sub a b)) := by
  have hsome : a < ar.nodes.length → b < ar.nodes.length →
      ar.subChecked a b = some (ar.sub a b) := by
    intro ha hb
    unfold GraphArena.subChecked
    rw [nodeAt_lt _ _ ha, nodeAt_lt _ _ hb]
    rfl
  refine ⟨⟨?_, ?_⟩, hsome⟩
  · intro hn hc
    rw [hsome hc.1 hc.2] at hn
    cases hn
  · intro hc
    unfold GraphArena.subChecked
    by_cases ha : a < ar.nodes.length
    · have hb : ¬ b < ar.nodes.length := fun hb => hc ⟨ha, hb⟩
      rw [nodeAt_lt _ _ ha, List.getElem?_eq_none (Nat.le_of_not_lt hb)]
    · rw [List.getElem?_eq_none (Nat.le_of_not_lt ha)]

theorem mulChecked_spec (ar : GraphArena T) (a b : Nat) :
    (ar.mulChecked a b = none ↔
      ¬(a < ar.nodes.length ∧ b < ar.nodes.length)) ∧
    (a < ar.nodes.length → b < ar.nodes.length →
      ar.mulChecked a b = some (ar.mul a b)) := by
  have hsome : a < ar.nodes.length → b < ar.nodes.length →
      ar.mulChecked a b = some (ar.mul a b) := by
    intro ha hb
    unfold GraphArena.mulChecked
    rw [nodeAt_lt _ _ ha, nodeAt_lt _ _ hb]
    rfl
  refine ⟨⟨?_, ?_⟩, hsome⟩
  · intro hn hc
    rw [hsome hc.1 hc.2] at hn
    cases hn
  · intro hc
    unfold GraphArena.mulChecked
    by_cases ha : a < ar.nodes.length
    · have hb : ¬ b < ar.nodes.length := fun hb => hc ⟨ha, hb⟩
      rw [nodeAt_lt _ _ ha, List.getElem?_eq_none (Nat.le_of_not_lt hb)]
    · rw [List.getElem?_eq_none (Nat.le_of_not_lt ha)]

theorem divChecked_spec (ar : GraphArena T) (a b : Nat) :
    (ar.divChecked a b = none ↔
      ¬(a < ar.nodes.length ∧ b < ar.nodes.length)) ∧
    (a < ar.nodes.length → b < ar.nodes.length →
      ar.divChecked a b = some (ar.div a b)) := by
  have hsome : a < ar.nodes.length → b < ar.nodes.length →
      ar.divChecked a b = some (ar.div a b) := by
    intro ha hb
    unfold GraphArena.divChecked
    rw [nodeAt_lt _ _ ha, nodeAt_lt _ _ hb]
    rfl
  refine ⟨⟨?_, ?_⟩, hsome⟩
  · intro hn hc
    rw [hsome hc.1 hc.2] at hn
    cases hn
  · intro hc
    unfold GraphArena.divChecked
    by_cases ha : a < ar.nodes.length
    · have hb : ¬ b < ar.nodes.length := fun hb => hc ⟨ha, hb⟩
      rw [nodeAt_lt _ _ ha, List.getElem?_eq_none (Nat.le_of_not_lt hb)]
    · rw [List.getElem?_eq_none (Nat.le_of_not_lt ha)]

theorem reluChecked_spec (ar : GraphArena T) (a : Nat) :
    (ar.reluChecked a = none ↔ ¬ a < ar.nodes.length) ∧
    (a < ar.nodes.length → ar.reluChecked a = some (ar.relu a)) := by
  have hsome : a < ar.nodes.length →
      ar.reluChecked a = some (ar.relu a) := by
    intro ha
    unfold GraphArena.reluChecked
    rw [nodeAt_lt _ _ ha]
    rfl
  refine ⟨⟨?_, ?_⟩, hsome⟩
  · intro hn hc
    rw [hsome hc] at hn
    cases hn
  · intro hc
    unfold GraphArena.reluChecked
    rw [List.getElem?_eq_none (Nat.le_of_not_lt hc)]

theorem tanhChecked_spec (ar : GraphArena T) (f : T → T) (a : Nat) :
    (ar.tanhChecked f a = none ↔ ¬ a < ar.nodes.length) ∧
    (a < ar.nodes.length → ar.tanhChecked f a = some (ar.tanh f a)) := by
  have hsome : a < ar.nodes.length →
      ar.tanhChecked f a = some (ar.tanh f a) := by
    intro ha
    unfold GraphArena.tanhChecked
    rw [nodeAt_lt _ _ ha]
    rfl
  refine ⟨⟨?_, ?_⟩, hsome⟩
  · intro hn hc
    rw [hsome hc] at hn
    cases hn
  · intro hc
    unfold GraphArena.tanhChecked
    rw [List.getElem?_eq_none (Nat.le_of_not_lt hc)]

theorem powfChecked_spec (ar : GraphArena T) (p : T → T → T) (e : T) (a : Nat) :
    (ar.powfChecked p a e = none ↔ ¬ a < ar.nodes.length) ∧
    (a < ar.nodes.length → ar.powfChecked p a e = some (ar.powf p a e)) := by
  have hsome : a < ar.nodes.length →
      ar.powfChecked p a e = some (ar.powf p a e) := by
    intro ha
    unfold GraphArena.powfChecked
    rw [nodeAt_lt _ _ ha]
    rfl
  refine ⟨⟨?_, ?_⟩, hsome⟩
  · intro hn hc
    rw [hsome hc] at hn
    cases hn
  · intro hc
    unfold GraphArena.powfChecked
    rw [List.getElem?_eq_none (Nat.le_of_not_lt hc)]

theorem list_len2 (l : List Nat) (h : l.length = 2) : ∃ a b, l = [a, b] := by
  rcases l with _ | ⟨a, _ | ⟨b, _ | ⟨c, t⟩⟩⟩ <;> simp at h
  exact ⟨a, b, rfl⟩

theorem list_len1 (l : List Nat) (h : l.length = 1) : ∃ a, l = [a] := by
  rcases l with _ | ⟨a, _ | ⟨b, t⟩⟩ <;> simp at h
  exact ⟨a, rfl⟩

theorem nodeWf_of_shape_eq (i : Nat) (n m : Node T) (hop : n.op = m.op)
    (hpar : n.parents = m.parents) (h : NodeWf i m) : NodeWf i n := by
  unfold NodeWf at h ⊢
  rw [hop, hpar]
  exact h

theorem shapeWf_backwardStep (p : T → T → T) (ns : List (Node T))
    (idx : Nat) (hwf : ShapeWf ns) : ShapeWf (backwardStep p ns idx) := by
  intro i hi
  rw [length_backwardStep] at hi
  exact nodeWf_of_shape_eq i _ _ (opAt_backwardStep p ns idx i)
    (parentsAt_backwardStep p ns idx i) (hwf i hi)

theorem shapeWf_setGrad (ns : List (Node T)) (i : Nat) (g : T)
    (hwf : ShapeWf ns) : ShapeWf (setGrad ns i g) := by
  intro j hj
  rw [length_setGrad] at hj
  exact nodeWf_of_shape_eq j _ _ (opAt_setGrad ns i j g)
    (parentsAt_setGrad ns i j g) (hwf j hj)

theorem shapeWf_resetGrads (ns : List (Node T)) (hwf : ShapeWf ns) :
    ShapeWf (resetGrads ns) := by
  intro j hj
  rw [length_resetGrads] at hj
  exact nodeWf_of_shape_eq j _ _ (opAt_resetGrads ns j)
    (parentsAt_resetGrads ns j) (hwf j hj)

theorem backwardStepChecked_eq (p : T → T → T) (ns : List (Node T))
    (idx : Nat) (hwf : ShapeWf ns) (hidx : idx < ns.length) :
    backwardStepChecked p ns idx = some (backwardStep p ns idx) := by
  obtain ⟨harity, hparlt⟩ := hwf idx hidx
  have hbound : ∀ q ∈ (nodeAt ns idx).parents, q < ns.length :=
    fun q hq => Nat.lt_trans (hparlt q hq) hidx
  unfold backwardStepChecked backwardStep
  rw [nodeAt_lt _ _ hidx]
  dsimp only
  cases hop : (nodeAt ns idx).op with
  | input => rfl
  | add =>
      rw [hop] at harity
      simp [opArity] at harity
      obtain ⟨a, b, hpl⟩ := list_len2 _ harity
      have ha : a < ns.length := hbound a (by rw [hpl]; simp)
      have hb : b < ns.length := hbound b (by rw [hpl]; simp)
      simp only [hpl]
      rw [nodeAt_lt _ _ ha, nodeAt_lt _ _ hb]
  | sub =>
      rw [hop] at harity
      simp [opArity] at harity
      obtain ⟨a, b, hpl⟩ := list_len2 _ harity
      have ha : a < ns.length := hbound a (by rw [hpl]; simp)
      have hb : b < ns.length := hbound b (by rw [hpl]; simp)
      simp only [hpl]
      rw [nodeAt_lt _ _ ha, nodeAt_lt _ _ hb]
  | mul =>
      rw [hop] at harity
      simp [opArity] at harity
      obtain ⟨a, b, hpl⟩ := list_len2 _ harity
      have ha : a < ns.length := hbound a (by rw [hpl]; simp)
      have hb : b < ns.length := hbound b (by rw [hpl]; simp)
      simp only [hpl]
      rw [nodeAt_lt _ _ ha, nodeAt_lt _ _ hb]
  | div =>
      rw [hop] at harity
      simp [opArity] at harity
      obtain ⟨a, b, hpl⟩ := list_len2 _ harity
      have ha : a < ns.length := hbound a (by rw [hpl]; simp)
      have hb : b < ns.length := hbound b (by rw [hpl]; simp)
      simp only [hpl]
      rw [nodeAt_lt _ _ ha, nodeAt_lt _ _ hb]
  | relu =>
      rw [hop] at harity
      simp [opArity] at harity
      obtain ⟨a, hpl⟩ := list_len1 _ harity
      have ha : a < ns.length := hbound a (by rw [hpl]; simp)
      simp only [hpl]
      rw [nodeAt_lt _ _ ha]
  | tanh =>
      rw [hop] at harity
      simp [opArity] at harity
      obtain ⟨a, hpl⟩ := list_len1 _ harity
      have ha : a < ns.length := hbound a (by rw [hpl]; simp)
      simp only [hpl]
      rw [nodeAt_lt _ _ ha]
  | pow e =>
      rw [hop] at harity
      simp [opArity] at harity
      obtain ⟨a, hpl⟩ := list_len1 _ harity
      have ha : a < ns.length := hbound a (by rw [hpl]; simp)
      simp only [hpl]
      rw [nodeAt_lt _ _ ha]

theorem foldlM_backwardStepChecked (p : T → T → T) (L : List Nat)
    (ns : List (Node T)) (hwf : ShapeWf ns)
    (hL : ∀ i ∈ L, i < ns.length) :
    L.foldlM (backwardStepChecked p) ns =
      some (L.foldl (backwardStep p) ns) := by
  induction L generalizing ns with
  | nil => rfl
  | cons i L ih =>
    rw [List.foldlM_cons,
      backwardStepChecked_eq p ns i hwf (hL i (by simp)), List.foldl_cons]
    exact ih (backwardStep p ns i) (shapeWf_backwardStep p ns i hwf)
      (fun j hj => by
        rw [length_backwardStep]
        exact hL j (by simp [hj]))

theorem backwardChecked_none (p : T → T → T) (ar : GraphArena T)
    (root : Nat) (h : ¬ root < ar.nodes.length) :
    backwardChecked p ar root = none := by
  unfold backwardChecked
  dsimp only
  have hle : (resetGrads ar.nodes).length ≤ root := by
    rw [length_resetGrads]
    exact Nat.le_of_not_lt h
  rw [List.getElem?_eq_none hle]

theorem backwardChecked_some (p : T → T → T) (ar : GraphArena T)
    (root : Nat) (hwf : Wf ar) (hroot : root < ar.nodes.length) :
    backwardChecked p ar root = some (backward p ar root) := by
  unfold backwardChecked backward
  dsimp only
  have hlen : root < (resetGrads ar.nodes).length := by
    rw [length_resetGrads]; exact hroot
  rw [nodeAt_lt _ _ hlen]
  dsimp only
  have hwf1 : ShapeWf (setGrad (resetGrads ar.nodes) root 1) :=
    shapeWf_setGrad _ _ _ (shapeWf_resetGrads _ hwf.2)
  have hmem : ∀ i ∈ ar.topo.reverse,
      i < (setGrad (resetGrads ar.nodes) root 1).length := by
    intro i hi
    rw [length_setGrad, length_resetGrads]
    rw [List.mem_reverse, hwf.1, List.mem_range] at hi
    exact hi
  have hset : (resetGrads ar.nodes).set root
      { nodeAt (resetGrads ar.nodes) root with grad := 1 } =
      setGrad (resetGrads ar.nodes) root 1 := rfl
  rw [hset, foldlM_backwardStepChecked p _ _ hwf1 hmem]


/-- C9: passing an out-of-range index to any combining/unary/power
construction operation or to `backward` faults immediately (the checked
embedding returns `none`, i.e. no result); with all supplied indices in
range (and, for `backward`, a well-formed arena) no fault occurs and the
checked run returns the total result. -/
theorem claim9_index_fault_semantics (ar : GraphArena T) (a b root : Nat)
    (e : T) (f : T → T) (p : T → T → T) :
    ((ar.addChecked a b = none ↔
        ¬(a < ar.nodes.length ∧ b < ar.nodes.length)) ∧
      (a < ar.nodes.length → b < ar.nodes.length →
        ar.addChecked a b = some (ar.add a b))) ∧
    ((ar.subChecked a b = none ↔
        ¬(a < ar.nodes.length ∧ b < ar.nodes.length)) ∧
      (a < ar.nodes.length → b < ar.nodes.length →
        ar.subChecked a b = some (ar.sub a b))) ∧
    ((ar.mulChecked a b = none ↔
        ¬(a < ar.nodes.length ∧ b < ar.nodes.length)) ∧
      (a < ar.nodes.length → b < ar.nodes.length →
        ar.mulChecked a b = some (ar.mul a b))) ∧
    ((ar.divChecked a b = none ↔
        ¬(a < ar.nodes.length ∧ b < ar.nodes.length)) ∧
      (a < ar.nodes.length → b < ar.nodes.length →
        ar.divChecked a b = some (ar.div a b))) ∧
    ((ar.reluChecked a = none ↔ ¬ a < ar.nodes.length) ∧
      (a < ar.nodes.length → ar.reluChecked a = some (ar.relu a))) ∧
    ((ar.tanhChecked f a = none ↔ ¬ a < ar.nodes.length) ∧
      (a < ar.nodes.length → ar.tanhChecked f a = some (ar.tanh f a))) ∧
    ((ar.powfChecked p a e = none ↔ ¬ a < ar.nodes.length) ∧
      (a < ar.nodes.length → ar.powfChecked p a e = some (ar.powf p a e))) ∧
    ((¬ root < ar.nodes.length → backwardChecked p ar root = none) ∧
      (Wf ar → root < ar.nodes.length →
        backwardChecked p ar root = some (backward p ar root))) :=
  ⟨addChecked_spec ar a b, subChecked_spec ar a b, mulChecked_spec ar a b,
    divChecked_spec ar a b, reluChecked_spec ar a, tanhChecked_spec ar f a,
    powfChecked_spec ar p e a,
    fun h => backwardChecked_none p ar root h,
    fun hwf hroot => backwardChecked_some p ar root hwf hroot⟩

theorem claim9_witness :
    GraphArena.addChecked ex2.1 0 7 = none ∧
    backwardChecked (fun (_ _ : ℚ) => 0) ex2.1 ex2.2 =
      some (backward (fun _ _ => 0) ex2.1 ex2.2) :=
  ⟨(claim9_index_fault_semantics ex2.1 0 7 ex2.2 2 (fun x => x)
      (fun _ _ => 0)).1.1.mpr (by decide),
   (claim9_index_fault_semantics ex2.1 0 7 ex2.2 2 (fun x => x)
      (fun _ _ => 0)).2.2.2.2.2.2.2.2 (by decide) (by decide)⟩

end RustyMicrograd
